import Mathlib

/-!
Verification of the MeshMail identity & attestation subsystem.

The definitions below are shallow embeddings of the TypeScript sources:
  - `src/lib/crypto.ts` (client keypair storage, backup codec, attestation codec, verifier)
  - `src/convex/users.ts` (backend address validator, availability query, registration mutation)
  - `src/convex/nodeActions.ts` (registration action)
  - the KMS module (server-side attestation message builder)
  - `src/screens/SetupScreen.tsx` (client address validator)

JavaScript platform primitives used by the sources (`String.prototype.toLowerCase`,
`btoa`/`atob`, `TextEncoder`/`TextDecoder` (UTF-8), `JSON.stringify`/`JSON.parse`
restricted to integer numerals, `parseInt(_, 16)`) are modelled explicitly as
executable Lean functions.
-/

namespace MeshMail

/-! ### JavaScript string primitives -/

/-- Model of JS `String.prototype.toLowerCase` (ASCII case folding, per character). -/
def jsToLowerCase (s : String) : String := String.mk (s.data.map Char.toLower)

theorem toNat_ofNat_valid (n : Nat) (h : n.isValidChar) : (Char.ofNat n).toNat = n := by
  simp only [Char.ofNat, dif_pos h]
  rfl

theorem char_toLower_idem (c : Char) : c.toLower.toLower = c.toLower := by
  unfold Char.toLower
  by_cases h : c.toNat ≥ 65 ∧ c.toNat ≤ 90
  · rw [if_pos h]
    have hv : (c.toNat + 32).isValidChar := Or.inl (by omega)
    have ht : (Char.ofNat (c.toNat + 32)).toNat = c.toNat + 32 := toNat_ofNat_valid _ hv
    rw [if_neg]
    omega
  · rw [if_neg h, if_neg h]

theorem jsToLowerCase_idem (s : String) :
    jsToLowerCase (jsToLowerCase s) = jsToLowerCase s := by
  unfold jsToLowerCase
  simp [List.map_map, Function.comp_def, char_toLower_idem]

/-- Model of JS `String.prototype.trim` (strips leading and trailing whitespace). -/
def jsTrim (s : String) : String :=
  String.mk (((s.data.dropWhile Char.isWhitespace).reverse.dropWhile Char.isWhitespace).reverse)

/-- Character-list core of JS `String.prototype.startsWith`. -/
def startsAux : List Char → List Char → Bool
  | _, [] => true
  | [], _ :: _ => false
  | c :: cs, d :: ds => (c = d) && startsAux cs ds

/-- Model of the JS string method testing whether `s` starts with `p`. -/
def jsStartsWith (s p : String) : Bool := startsAux s.data p.data

/-! ### Address validator (backend, `src/convex/users.ts`) -/

/-- Reserved prefixes that cannot be used for addresses (src/convex/users.ts). -/
def RESERVED_PREFIXES : List String :=
  ["911", "help", "info", "admin", "support", "noreply", "postmaster", "abuse",
   "security", "root", "system", "mail", "test"]

/-- Result record `{ valid, reason? }` returned by both validators. -/
structure ValidationResult where
  valid : Bool
  reason : Option String

deriving instance DecidableEq for ValidationResult

/-- One character of the class `[a-z0-9.]`. -/
def addrCharOk (c : Char) : Bool :=
  (('a' ≤ c) && (c ≤ 'z')) || (('0' ≤ c) && (c ≤ '9')) || (c = '.')

/-- The regex test `/^[a-z0-9.]{1,16}$/.test s`. -/
def addrFormatOk (s : String) : Bool :=
  (1 ≤ s.length) && (s.length ≤ 16) && s.data.all addrCharOk

/-- The regex test `/^[a-z]/.test s`. -/
def startsWithLetter (s : String) : Bool :=
  match s.data with
  | [] => false
  | c :: _ => ('a' ≤ c) && (c ≤ 'z')

/-- `validateAddress` from src/convex/users.ts. -/
def validateAddress (address : String) : ValidationResult :=
  let normalized := jsToLowerCase (jsTrim address)
  if jsTrim address ≠ normalized then ⟨false, some "must_be_lowercase"⟩
  else if ¬ addrFormatOk normalized then ⟨false, some "invalid_format"⟩
  else if ¬ startsWithLetter normalized then ⟨false, some "must_start_with_letter"⟩
  else if RESERVED_PREFIXES.any (fun p => jsStartsWith normalized p) then
    ⟨false, some "reserved_prefix"⟩
  else ⟨true, none⟩

/-! ### Address validator (client, `src/screens/SetupScreen.tsx`) -/

/-- `validateAddressFormat` from src/screens/SetupScreen.tsx (its `error` strings
are kept verbatim in the `reason` field). -/
def validateAddressFormat (address : String) : ValidationResult :=
  if address ≠ jsToLowerCase address then ⟨false, some "Must be lowercase"⟩
  else if ¬ addrFormatOk address then
    if address.length = 0 then ⟨false, some "Required"⟩
    else if 16 < address.length then ⟨false, some "Max 16 characters"⟩
    else ⟨false, some "Letters, numbers, periods only"⟩
  else if ¬ startsWithLetter address then ⟨false, some "Must start with a letter"⟩
  else
    match RESERVED_PREFIXES.find? (fun p => jsStartsWith address p) with
    | some p => ⟨false, some ("\"" ++ p ++ "\" prefix is reserved")⟩
    | none => ⟨true, none⟩

/-- Modelled from the spec and claim C3 (spec section 4.1): the claimed check order
`required` (empty after trim), then `must_be_lowercase`, then `invalid_format`,
then `must_start_with_letter`, then `reserved_prefix`, else valid. -/
def claimValidate (s : String) : String :=
  if jsTrim s = "" then "required"
  else if s ≠ jsToLowerCase s then "must_be_lowercase"
  else if ¬ addrFormatOk s then "invalid_format"
  else if ¬ startsWithLetter s then "must_start_with_letter"
  else if RESERVED_PREFIXES.any (fun p => jsStartsWith s p) then "reserved_prefix"
  else "valid"

/-- Canonical reason code of a backend validator result. -/
def backendReasonCode (r : ValidationResult) : String :=
  if r.valid then "valid" else r.reason.getD ""

/-- Canonical reason code of a client validator result (maps the client's
human-readable error strings onto the backend reason codes). -/
def clientReasonCode (r : ValidationResult) : String :=
  if r.valid then "valid"
  else
    match r.reason with
    | some "Must be lowercase" => "must_be_lowercase"
    | some "Required" => "invalid_format"
    | some "Max 16 characters" => "invalid_format"
    | some "Letters, numbers, periods only" => "invalid_format"
    | some "Must start with a letter" => "must_start_with_letter"
    | _ => "reserved_prefix"

theorem find?_mem_reserved {p : String} {s : String}
    (h : RESERVED_PREFIXES.find? (fun q => jsStartsWith s q) = some p) :
    p ∈ RESERVED_PREFIXES :=
  List.mem_of_find?_eq_some h

/-- Claim C3 (counterexample): the claim's check order predicts reason `required`
for the all-whitespace input `" "` (empty after trimming), but the backend
validator `validateAddress` returns `invalid_format` (it has no `required`
reason at all) and the client validator returns its charset error
(`invalid_format`), not `Required`. -/
theorem c3_counterexample :
    claimValidate " " = "required" ∧
    validateAddress " " = ⟨false, some "invalid_format"⟩ ∧
    validateAddressFormat " " = ⟨false, some "Letters, numbers, periods only"⟩ ∧
    ("required" : String) ≠ "invalid_format" ∧
    ("required" : String) ≠ "Letters, numbers, periods only" := by
  refine ⟨by decide, by decide, by decide, by decide, by decide⟩

/-- Claim C3 (amended): the backend validator checks, in fixed order with the
first failing check winning: `must_be_lowercase` (the trimmed input differs from
its lowercased form), then `invalid_format` (the trimmed input is empty, longer
than 16 characters, or contains characters outside `[a-z0-9.]`), then
`must_start_with_letter`, then `reserved_prefix`, otherwise valid; there is no
separate `required` reason. The client validator checks the same conditions in
the same order on the untrimmed input (reporting `Required` only inside the
format check, for the empty string), so on inputs without surrounding
whitespace the two validators agree up to reason naming. -/
theorem c3_amended (s : String) :
    (validateAddress s = ⟨false, some "must_be_lowercase"⟩ ↔
      jsTrim s ≠ jsToLowerCase (jsTrim s)) ∧
    (validateAddress s = ⟨false, some "invalid_format"⟩ ↔
      (jsTrim s = jsToLowerCase (jsTrim s) ∧ addrFormatOk (jsTrim s) = false)) ∧
    (validateAddress s = ⟨false, some "must_start_with_letter"⟩ ↔
      (jsTrim s = jsToLowerCase (jsTrim s) ∧ addrFormatOk (jsTrim s) = true ∧
        startsWithLetter (jsTrim s) = false)) ∧
    (validateAddress s = ⟨false, some "reserved_prefix"⟩ ↔
      (jsTrim s = jsToLowerCase (jsTrim s) ∧ addrFormatOk (jsTrim s) = true ∧
        startsWithLetter (jsTrim s) = true ∧
        RESERVED_PREFIXES.any (fun p => jsStartsWith (jsTrim s) p) = true)) ∧
    (validateAddress s = ⟨true, none⟩ ↔
      (jsTrim s = jsToLowerCase (jsTrim s) ∧ addrFormatOk (jsTrim s) = true ∧
        startsWithLetter (jsTrim s) = true ∧
        RESERVED_PREFIXES.any (fun p => jsStartsWith (jsTrim s) p) = false)) ∧
    (jsTrim s = s →
      clientReasonCode (validateAddressFormat s) = backendReasonCode (validateAddress s)) := by
  by_cases h1 : jsTrim s = jsToLowerCase (jsTrim s)
  · have hnorm : jsToLowerCase (jsTrim s) = jsTrim s := h1.symm
    by_cases h2 : addrFormatOk (jsTrim s) = true
    · by_cases h3 : startsWithLetter (jsTrim s) = true
      · by_cases h4 : RESERVED_PREFIXES.any (fun p => jsStartsWith (jsTrim s) p) = true
        · have hv : validateAddress s = ⟨false, some "reserved_prefix"⟩ := by
            simp [validateAddress, hnorm, h2, h3, h4]
          have hmap : jsTrim s = s →
              clientReasonCode (validateAddressFormat s) = backendReasonCode (validateAddress s) := by
            intro hts
            rw [hts] at h1 h2 h3 h4
            have hfind : (RESERVED_PREFIXES.find? (fun p => jsStartsWith s p)).isSome := by
              simp only [List.find?_isSome]
              simpa using List.any_eq_true.mp h4
            obtain ⟨p, hp⟩ := Option.isSome_iff_exists.mp hfind
            have hmem : p ∈ RESERVED_PREFIXES := find?_mem_reserved hp
            have hcl : validateAddressFormat s =
                ⟨false, some ("\"" ++ p ++ "\" prefix is reserved")⟩ := by
              simp [validateAddressFormat, h1.symm, h2, h3, hp]
            rw [hcl, hv]
            simp only [RESERVED_PREFIXES, List.mem_cons, List.not_mem_nil, or_false] at hmem
            rcases hmem with rfl | rfl | rfl | rfl | rfl | rfl | rfl | rfl | rfl | rfl |
              rfl | rfl | rfl <;> decide
          refine ⟨?_, ?_, ?_, ?_, ?_, hmap⟩ <;> simp +decide [hv, hnorm, h2, h3, h4]
        · have hv : validateAddress s = ⟨true, none⟩ := by
            simp [validateAddress, hnorm, h2, h3, h4]
          have hmap : jsTrim s = s →
              clientReasonCode (validateAddressFormat s) = backendReasonCode (validateAddress s) := by
            intro hts
            rw [hts] at h1 h2 h3 h4
            have hfind : RESERVED_PREFIXES.find? (fun p => jsStartsWith s p) = none := by
              rw [List.find?_eq_none]
              intro p hpmem hps
              exact h4 (List.any_eq_true.mpr ⟨p, hpmem, hps⟩)
            have hcl : validateAddressFormat s = ⟨true, none⟩ := by
              simp [validateAddressFormat, h1.symm, h2, h3, hfind]
            rw [hcl, hv]
            decide
          refine ⟨?_, ?_, ?_, ?_, ?_, hmap⟩ <;> simp +decide [hv, hnorm, h2, h3, h4]
      · have hv : validateAddress s = ⟨false, some "must_start_with_letter"⟩ := by
          simp [validateAddress, hnorm, h2, h3]
        have hmap : jsTrim s = s →
            clientReasonCode (validateAddressFormat s) = backendReasonCode (validateAddress s) := by
          intro hts
          rw [hts] at h1 h2 h3
          have hcl : validateAddressFormat s = ⟨false, some "Must start with a letter"⟩ := by
            simp [validateAddressFormat, h1.symm, h2, h3]
          rw [hcl, hv]
          decide
        refine ⟨?_, ?_, ?_, ?_, ?_, hmap⟩ <;> simp +decide [hv, hnorm, h2, h3]
    · have hv : validateAddress s = ⟨false, some "invalid_format"⟩ := by
        simp [validateAddress, hnorm, h2]
      have hmap : jsTrim s = s →
          clientReasonCode (validateAddressFormat s) = backendReasonCode (validateAddress s) := by
        intro hts
        rw [hts] at h1 h2
        by_cases hlen0 : s.length = 0
        · have hcl : validateAddressFormat s = ⟨false, some "Required"⟩ := by
            simp [validateAddressFormat, h1.symm, h2, hlen0]
          rw [hcl, hv]
          decide
        · by_cases hlen16 : 16 < s.length
          · have hcl : validateAddressFormat s = ⟨false, some "Max 16 characters"⟩ := by
              simp [validateAddressFormat, h1.symm, h2, hlen0, hlen16]
            rw [hcl, hv]
            decide
          · have hcl : validateAddressFormat s =
                ⟨false, some "Letters, numbers, periods only"⟩ := by
              simp [validateAddressFormat, h1.symm, h2, hlen0, hlen16]
            rw [hcl, hv]
            decide
      refine ⟨?_, ?_, ?_, ?_, ?_, hmap⟩ <;> simp +decide [hv, hnorm, h2]
  · have hv : validateAddress s = ⟨false, some "must_be_lowercase"⟩ := by
      simp [validateAddress, h1]
    have hmap : jsTrim s = s →
        clientReasonCode (validateAddressFormat s) = backendReasonCode (validateAddress s) := by
      intro hts
      rw [hts] at h1
      have hcl : validateAddressFormat s = ⟨false, some "Must be lowercase"⟩ := by
        simp [validateAddressFormat, h1]
      rw [hcl, hv]
      decide
    refine ⟨?_, ?_, ?_, ?_, ?_, hmap⟩ <;> simp +decide [hv, h1]

/-- Concrete instantiation of the amended claim C3 at the whitespace-free input
"abc": the trim hypothesis holds and both validators agree there. -/
theorem c3_amended_witness :
    jsTrim "abc" = "abc" ∧
    clientReasonCode (validateAddressFormat "abc") = backendReasonCode (validateAddress "abc") :=
  ⟨by decide, (c3_amended "abc").2.2.2.2.2 (by decide)⟩

/-! ### Attestation message builders (client `src/lib/crypto.ts` and KMS module) -/

/-- `buildAttestationMessage` from src/lib/crypto.ts. -/
def buildAttestationMessage (address publicKeyHex : String) : String :=
  let normalized := jsToLowerCase address
  "meshmail.attestation.v1\naddress: " ++ normalized ++ "\npubkey_ed25519_hex: " ++ publicKeyHex

namespace Kms

/-- `buildAttestationMessage` from the server-side KMS module. -/
def buildAttestationMessage (address publicKeyHex : String) : String :=
  let normalized := jsToLowerCase address
  "meshmail.attestation.v1\naddress: " ++ normalized ++ "\npubkey_ed25519_hex: " ++ publicKeyHex

end Kms

theorem string_ext {a b : String} (h : a.data = b.data) : a = b := by
  cases a
  cases b
  exact congrArg String.mk h

/-- Claim C1: the attestation message is exactly the protocol tag, the address
line with the lowercased address, and the pubkey line, joined by single
newlines with no trailing newline; it is unchanged by pre-lowercasing the
address (repeated calls trivially agree since the builder is a pure function). -/
theorem c1_build_message_exact (a k : String) :
    buildAttestationMessage a k =
      "meshmail.attestation.v1" ++ "\n" ++ "address: " ++ jsToLowerCase a ++ "\n" ++
        "pubkey_ed25519_hex: " ++ k ∧
    buildAttestationMessage (jsToLowerCase a) k = buildAttestationMessage a k := by
  constructor
  · apply string_ext
    simp [buildAttestationMessage, String.data_append]
  · unfold buildAttestationMessage
    rw [jsToLowerCase_idem]

/-- Claim C2: the client-side and the KMS-side attestation message builders are
extensionally equal, so signer and verifier construct identical bytes. -/
theorem c2_builders_agree (a k : String) :
    buildAttestationMessage a k = Kms.buildAttestationMessage a k := rfl

/-! ### Secure store (expo-secure-store), modelled as a partial map -/

/-- The secure key-value store. -/
def Store := String → Option String

/-- `SecureStore.getItemAsync`. -/
def getItem (store : Store) (key : String) : Option String := store key

/-- `SecureStore.setItemAsync`. -/
def setItem (store : Store) (key value : String) : Store :=
  fun k => if k = key then some value else store k

/-- `SecureStore.deleteItemAsync`. -/
def deleteItem (store : Store) (key : String) : Store :=
  fun k => if k = key then none else store k

/-- `KEYS.PRIVATE_KEY` from src/lib/crypto.ts. -/
def PRIVATE_KEY : String := "meshmail_private_key"

/-- `KEYS.PUBLIC_KEY` from src/lib/crypto.ts. -/
def PUBLIC_KEY : String := "meshmail_public_key"

/-- `KEYS.MESH_HANDLE` from src/lib/crypto.ts. -/
def MESH_HANDLE : String := "meshmail_mesh_handle"

/-- `KEYS.AUTHORITY_SIGNATURE` from src/lib/crypto.ts. -/
def AUTHORITY_SIGNATURE : String := "meshmail_authority_signature"

/-- `deleteAllKeys` from src/lib/crypto.ts (keeps the mesh handle). -/
def deleteAllKeys (store : Store) : Store :=
  deleteItem (deleteItem (deleteItem store PRIVATE_KEY) PUBLIC_KEY) AUTHORITY_SIGNATURE

/-- `resetAllData` from src/lib/crypto.ts (also clears the mesh handle). -/
def resetAllData (store : Store) : Store :=
  deleteItem (deleteItem (deleteItem (deleteItem store PRIVATE_KEY) PUBLIC_KEY)
    AUTHORITY_SIGNATURE) MESH_HANDLE

/-- Claim C9: `deleteAllKeys` removes exactly the private key, public key and
authority signature and preserves every other entry (in particular the mesh
handle); `resetAllData` removes exactly those three plus the mesh handle and
preserves every other entry. -/
theorem c9_delete_frame (store : Store) (k : String) :
    (deleteAllKeys store k =
      if k = PRIVATE_KEY ∨ k = PUBLIC_KEY ∨ k = AUTHORITY_SIGNATURE then none else store k) ∧
    (resetAllData store k =
      if k = PRIVATE_KEY ∨ k = PUBLIC_KEY ∨ k = AUTHORITY_SIGNATURE ∨ k = MESH_HANDLE
        then none else store k) ∧
    deleteAllKeys store MESH_HANDLE = store MESH_HANDLE := by
  refine ⟨?_, ?_, ?_⟩
  · by_cases h1 : k = PRIVATE_KEY <;> by_cases h2 : k = PUBLIC_KEY <;>
      by_cases h3 : k = AUTHORITY_SIGNATURE <;>
      simp [deleteAllKeys, deleteItem, h1, h2, h3]
  · by_cases h1 : k = PRIVATE_KEY <;> by_cases h2 : k = PUBLIC_KEY <;>
      by_cases h3 : k = AUTHORITY_SIGNATURE <;> by_cases h4 : k = MESH_HANDLE <;>
      simp [resetAllData, deleteItem, h1, h2, h3, h4]
  · simp +decide [deleteAllKeys, deleteItem, PRIVATE_KEY, PUBLIC_KEY, AUTHORITY_SIGNATURE,
      MESH_HANDLE]

/-! ### Backend user records and registration mutation (src/convex/users.ts) -/

/-- A row of the `users` table. -/
structure UserRecord where
  address : String
  publicKey : String
  signature : String
  createdAt : Nat

deriving instance DecidableEq for UserRecord

/-- The `users` table. -/
abbrev Db := List UserRecord

/-- The `by_address` index lookup with `.unique()`. -/
def findByAddress (db : Db) (addr : String) : Option UserRecord :=
  db.find? (fun r => r.address = addr)

/-- JS `reason.replace(/_/g, ' ')`. -/
def underscoresToSpaces (s : String) : String :=
  String.mk (s.data.map (fun c => if c = '_' then ' ' else c))

deriving instance DecidableEq for Except

/-- Outcome of a Convex mutation: the resulting table plus either success or a
thrown error message. Convex mutations are transactional, so a thrown error
leaves the table unchanged. -/
structure MutationOutcome where
  db : Db
  result : Except String Unit

deriving instance DecidableEq for MutationOutcome

/-- `registerAddressMutation` from src/convex/users.ts (`now` stands for the
`Date.now()` call). -/
def registerAddressMutation (address publicKey signature : String) (now : Nat)
    (db : Db) : MutationOutcome :=
  let validation := validateAddress address
  if validation.valid = false then
    ⟨db, .error ("Invalid address: " ++ underscoresToSpaces (validation.reason.getD ""))⟩
  else
    let normalized := jsToLowerCase address
    match findByAddress db normalized with
    | some _ => ⟨db, .error "Address already taken"⟩
    | none => ⟨db ++ [⟨normalized, publicKey, signature, now⟩], .ok ()⟩

/-- Database states reachable from the empty table by registration mutations. -/
inductive Reachable : Db → Prop where
  | empty : Reachable []
  | step (address publicKey signature : String) (now : Nat) (db : Db) :
      Reachable db → Reachable (registerAddressMutation address publicKey signature now db).db

/-- Invariant maintained by the mutation: stored addresses are pairwise
distinct and already lowercase. -/
def DbInv (db : Db) : Prop :=
  (db.map (fun r => r.address)).Nodup ∧ ∀ r ∈ db, jsToLowerCase r.address = r.address

theorem findByAddress_eq_none_iff (db : Db) (a : String) :
    findByAddress db a = none ↔ ∀ r ∈ db, r.address ≠ a := by
  unfold findByAddress
  rw [List.find?_eq_none]
  simp

theorem mutation_validationError (address publicKey signature : String) (now : Nat)
    (db : Db) (hval : (validateAddress address).valid = false) :
    registerAddressMutation address publicKey signature now db =
      ⟨db, .error ("Invalid address: " ++
        underscoresToSpaces ((validateAddress address).reason.getD ""))⟩ := by
  simp [registerAddressMutation, hval]

theorem mutation_taken (address publicKey signature : String) (now : Nat) (db : Db)
    (hval : (validateAddress address).valid = true)
    (hfind : (findByAddress db (jsToLowerCase address)).isSome = true) :
    registerAddressMutation address publicKey signature now db =
      ⟨db, .error "Address already taken"⟩ := by
  obtain ⟨r, hr⟩ := Option.isSome_iff_exists.mp hfind
  simp [registerAddressMutation, hval, hr]

theorem mutation_inserts (address publicKey signature : String) (now : Nat) (db : Db)
    (hval : (validateAddress address).valid = true)
    (hfind : findByAddress db (jsToLowerCase address) = none) :
    registerAddressMutation address publicKey signature now db =
      ⟨db ++ [⟨jsToLowerCase address, publicKey, signature, now⟩], .ok ()⟩ := by
  simp [registerAddressMutation, hval, hfind]

theorem dbInv_step (address publicKey signature : String) (now : Nat) (db : Db)
    (h : DbInv db) :
    DbInv (registerAddressMutation address publicKey signature now db).db := by
  obtain ⟨hnd, hlow⟩ := h
  by_cases hval : (validateAddress address).valid = true
  · cases hfind : findByAddress db (jsToLowerCase address) with
    | some r =>
      rw [mutation_taken address publicKey signature now db hval (by rw [hfind]; rfl)]
      exact ⟨hnd, hlow⟩
    | none =>
      rw [mutation_inserts address publicKey signature now db hval hfind]
      have hnotin : ∀ r ∈ db, r.address ≠ jsToLowerCase address :=
        (findByAddress_eq_none_iff db (jsToLowerCase address)).mp hfind
      constructor
      · rw [List.map_append, List.nodup_append]
        refine ⟨hnd, by simp, ?_⟩
        intro x hx
        simp only [List.mem_map] at hx
        obtain ⟨r, hr, rfl⟩ := hx
        simp only [List.map_cons, List.map_nil, List.mem_singleton]
        exact hnotin r hr
      · intro r hr
        rcases List.mem_append.mp hr with hr2 | hr2
        · exact hlow r hr2
        · simp only [List.mem_singleton] at hr2
          subst hr2
          exact jsToLowerCase_idem address
  · have hval2 : (validateAddress address).valid = false := by
      revert hval
      cases (validateAddress address).valid <;> simp
    rw [mutation_validationError address publicKey signature now db hval2]
    exact ⟨hnd, hlow⟩

theorem reachable_dbInv (db : Db) (h : Reachable db) : DbInv db := by
  induction h with
  | empty => exact ⟨List.nodup_nil, by simp⟩
  | step address publicKey signature now db hdb ih =>
    exact dbInv_step address publicKey signature now db ih

theorem filter_length_le_one {α : Type} {f : α → String} (l : List α) (a : String)
    (h : (l.map f).Nodup) : (l.filter (fun x => f x = a)).length ≤ 1 := by
  induction l with
  | nil => simp
  | cons x xs ih =>
    simp only [List.map_cons, List.nodup_cons] at h
    obtain ⟨hx, hxs⟩ := h
    by_cases hxa : f x = a
    · have hnone : xs.filter (fun y => f y = a) = [] := by
        rw [List.filter_eq_nil_iff]
        intro y hy
        simp only [decide_eq_true_eq]
        intro hya
        exact hx (List.mem_map.mpr ⟨y, hy, by rw [hya, hxa]⟩)
      simp [List.filter_cons, hxa, hnone]
    · simp only [List.filter_cons, hxa, decide_False, if_false]
      exact ih hxs

/-- Claim C4 (counterexample): for the invalid address "Abc" on the empty
table, no record at the canonical address exists, yet the mutation inserts
nothing and throws the validation error rather than behaving as the claim's
"otherwise it inserts exactly one record" / "...throws Address already taken"
dichotomy states. -/
theorem c4_counterexample :
    findByAddress [] (jsToLowerCase "Abc") = none ∧
    registerAddressMutation "Abc" "pk" "sig" 0 [] =
      ⟨[], .error "Invalid address: must be lowercase"⟩ ∧
    ("Invalid address: must be lowercase" : String) ≠ "Address already taken" := by
  refine ⟨rfl, by decide, by decide⟩

/-- Claim C4 (amended): in every database state reachable by registration
mutation steps from the empty table, at most one record exists per canonical
(lowercase) address; and for every address that passes validation: if a record
at the canonical address already exists the mutation throws "Address already
taken" and leaves the table unchanged (no partial record), otherwise it inserts
exactly one record — hence two successive registration attempts for the same
valid fresh address yield exactly one stored record and one "Address already
taken" error. -/
theorem c4_amended (db : Db) (hdb : Reachable db) :
    (∀ a, (db.filter (fun r => jsToLowerCase r.address = a)).length ≤ 1) ∧
    (∀ address publicKey signature now, (validateAddress address).valid = true →
      ((findByAddress db (jsToLowerCase address)).isSome = true →
        registerAddressMutation address publicKey signature now db =
          ⟨db, .error "Address already taken"⟩) ∧
      (findByAddress db (jsToLowerCase address) = none →
        registerAddressMutation address publicKey signature now db =
          ⟨db ++ [⟨jsToLowerCase address, publicKey, signature, now⟩], .ok ()⟩)) ∧
    (∀ address pk1 sig1 t1 pk2 sig2 t2, (validateAddress address).valid = true →
      findByAddress db (jsToLowerCase address) = none →
      (registerAddressMutation address pk1 sig1 t1 db).result = .ok () ∧
      (registerAddressMutation address pk2 sig2 t2
          (registerAddressMutation address pk1 sig1 t1 db).db).result =
        .error "Address already taken" ∧
      (registerAddressMutation address pk2 sig2 t2
          (registerAddressMutation address pk1 sig1 t1 db).db).db =
        (registerAddressMutation address pk1 sig1 t1 db).db ∧
      ((registerAddressMutation address pk1 sig1 t1 db).db.filter
          (fun r => jsToLowerCase r.address = jsToLowerCase address)).length = 1) := by
  have inv := reachable_dbInv db hdb
  refine ⟨?_, ?_, ?_⟩
  · intro a
    have hmap : db.map (fun r => jsToLowerCase r.address) = db.map (fun r => r.address) :=
      List.map_congr_left (fun r hr => inv.2 r hr)
    apply filter_length_le_one
    rw [hmap]
    exact inv.1
  · intro address publicKey signature now hval
    exact ⟨mutation_taken address publicKey signature now db hval,
      mutation_inserts address publicKey signature now db hval⟩
  · intro address pk1 sig1 t1 pk2 sig2 t2 hval hfind
    have h1 := mutation_inserts address pk1 sig1 t1 db hval hfind
    have hfind2 : (findByAddress
        (db ++ [⟨jsToLowerCase address, pk1, sig1, t1⟩]) (jsToLowerCase address)).isSome
          = true := by
      unfold findByAddress
      simp only [List.find?_isSome]
      exact ⟨⟨jsToLowerCase address, pk1, sig1, t1⟩, by simp, by simp⟩
    have h2 := mutation_taken address pk2 sig2 t2
      (db ++ [⟨jsToLowerCase address, pk1, sig1, t1⟩]) hval hfind2
    have hdb0 : db.filter (fun r => jsToLowerCase r.address = jsToLowerCase address) = [] := by
      rw [List.filter_eq_nil_iff]
      intro r hr
      simp only [decide_eq_true_eq]
      intro hc
      exact (findByAddress_eq_none_iff db (jsToLowerCase address)).mp hfind r hr
        (by rw [← inv.2 r hr, hc])
    refine ⟨by rw [h1], ?_, ?_, ?_⟩
    · rw [h1]
      rw [h2]
    · rw [h1]
      rw [h2]
    · rw [h1]
      simp only [List.filter_append, hdb0, List.nil_append]
      simp [List.filter, jsToLowerCase_idem]

/-- Concrete instantiation of the amended claim C4: registering "ab" on the
empty (reachable) table succeeds and stores the record. -/
theorem c4_amended_witness :
    Reachable ([] : Db) ∧ (validateAddress "ab").valid = true ∧
    registerAddressMutation "ab" "pk" "sig" 0 [] = ⟨[⟨"ab", "pk", "sig", 0⟩], .ok ()⟩ := by
  refine ⟨Reachable.empty, by decide, ?_⟩
  have h := ((c4_amended [] Reachable.empty).2.1 "ab" "pk" "sig" 0 (by decide)).2 rfl
  have hl : jsToLowerCase "ab" = "ab" := by decide
  rw [hl] at h
  simpa using h

/-! ### Availability query and registration action (src/convex/nodeActions.ts) -/

/-- Result record of the availability query. -/
structure AvailabilityResult where
  available : Bool
  reason : String

deriving instance DecidableEq for AvailabilityResult

/-- `isAddressAvailable` from src/convex/users.ts. -/
def isAddressAvailable (address : String) (db : Db) : AvailabilityResult :=
  let validation := validateAddress address
  if validation.valid = false then ⟨false, validation.reason.getD ""⟩
  else
    let normalized := jsToLowerCase (jsTrim address)
    match findByAddress db normalized with
    | some _ => ⟨false, "taken"⟩
    | none => ⟨true, "available"⟩

/-- Model of the case-insensitive regex test in the source,
`/^[a-f0-9]{64}$/i.test publicKey`. -/
def pubKeyFormatOk (s : String) : Bool :=
  (s.length = 64) && s.data.all (fun c =>
    (('a' ≤ c) && (c ≤ 'f')) || (('A' ≤ c) && (c ≤ 'F')) || (('0' ≤ c) && (c ≤ '9')))

/-- Modelled from the claim C8: the case-sensitive lowercase pattern
`^[a-f0-9]{64}$` that the claim says the action enforces. -/
def pubKeyLowercaseOk (s : String) : Bool :=
  (s.length = 64) && s.data.all (fun c =>
    (('a' ≤ c) && (c ≤ 'f')) || (('0' ≤ c) && (c ≤ '9')))

/-- The error-message switch over availability reasons in
src/convex/nodeActions.ts. -/
def availabilityErrorMessage (reason : String) : String :=
  if reason = "taken" then "Address already taken"
  else if reason = "must_start_with_letter" then "Address must start with a letter"
  else if reason = "reserved_prefix" then "This address prefix is reserved"
  else if reason = "must_be_lowercase" then "Address must be lowercase"
  else if reason = "invalid_format" then "Invalid address format"
  else "Address not available"

/-- Outcome of the registration action: the resulting table plus either the
returned signature or a thrown error message. -/
structure ActionOutcome where
  db : Db
  result : Except String String

deriving instance DecidableEq for ActionOutcome

/-- `registerAddressAction` from src/convex/nodeActions.ts, with the external
KMS signer passed in as `sign`. -/
def registerAddressAction (sign : String → String → String)
    (address publicKey : String) (now : Nat) (db : Db) : ActionOutcome :=
  let trimmed := jsToLowerCase (jsTrim address)
  if pubKeyFormatOk publicKey = false then ⟨db, .error "Invalid public key format"⟩
  else
    let availability := isAddressAvailable trimmed db
    if availability.available = false then
      ⟨db, .error (availabilityErrorMessage availability.reason)⟩
    else
      let signature := sign trimmed publicKey
      let m := registerAddressMutation trimmed publicKey signature now db
      match m.result with
      | .error e => ⟨m.db, .error e⟩
      | .ok _ => ⟨m.db, .ok signature⟩

theorem validateAddress_cases (s : String) :
    validateAddress s = ⟨true, none⟩ ∨
    validateAddress s = ⟨false, some "must_be_lowercase"⟩ ∨
    validateAddress s = ⟨false, some "invalid_format"⟩ ∨
    validateAddress s = ⟨false, some "must_start_with_letter"⟩ ∨
    validateAddress s = ⟨false, some "reserved_prefix"⟩ := by
  simp only [validateAddress]
  split_ifs <;> simp

theorem availabilityErrorMessage_ne (reason : String) :
    availabilityErrorMessage reason ≠ "Invalid public key format" := by
  unfold availabilityErrorMessage
  split_ifs <;> decide

theorem action_pubkey_reject (sign : String → String → String)
    (address publicKey : String) (now : Nat) (db : Db)
    (hpk : pubKeyFormatOk publicKey = false) :
    registerAddressAction sign address publicKey now db =
      ⟨db, .error "Invalid public key format"⟩ := by
  simp [registerAddressAction, hpk]

theorem action_unavailable (sign : String → String → String)
    (address publicKey : String) (now : Nat) (db : Db)
    (hpk : pubKeyFormatOk publicKey = true)
    (hav : (isAddressAvailable (jsToLowerCase (jsTrim address)) db).available = false) :
    registerAddressAction sign address publicKey now db =
      ⟨db, .error (availabilityErrorMessage
        (isAddressAvailable (jsToLowerCase (jsTrim address)) db).reason)⟩ := by
  simp [registerAddressAction, hpk, hav]

theorem action_available (sign : String → String → String)
    (address publicKey : String) (now : Nat) (db : Db)
    (hpk : pubKeyFormatOk publicKey = true)
    (hav : (isAddressAvailable (jsToLowerCase (jsTrim address)) db).available = true) :
    registerAddressAction sign address publicKey now db =
      (match (registerAddressMutation (jsToLowerCase (jsTrim address)) publicKey
          (sign (jsToLowerCase (jsTrim address)) publicKey) now db).result with
       | .error e => ⟨(registerAddressMutation (jsToLowerCase (jsTrim address)) publicKey
          (sign (jsToLowerCase (jsTrim address)) publicKey) now db).db, .error e⟩
       | .ok _ => ⟨(registerAddressMutation (jsToLowerCase (jsTrim address)) publicKey
          (sign (jsToLowerCase (jsTrim address)) publicKey) now db).db,
          .ok (sign (jsToLowerCase (jsTrim address)) publicKey)⟩) := by
  simp [registerAddressAction, hpk, hav]

/-- Claim C8 (counterexample): a 64-character uppercase hex key fails the
claim's lowercase pattern, yet the action accepts it (the source regex carries
the `/i` flag) and completes registration instead of throwing
"Invalid public key format". -/
theorem c8_counterexample :
    pubKeyLowercaseOk (String.mk (List.replicate 64 'A')) = false ∧
    (registerAddressAction (fun _ _ => "sig") "alice" (String.mk (List.replicate 64 'A'))
        0 []).result = .ok "sig" := by
  refine ⟨by decide, by decide⟩

/-- Claim C8 (amended): the action throws "Invalid public key format" exactly
when the supplied public key fails the case-insensitive pattern
`^[a-f0-9]{64}$/i`; in that case the database is unchanged and the signer is
never consulted (the outcome is independent of the `sign` function), and the
rejection happens before availability checking, signing, or insertion. -/
theorem c8_amended (sign : String → String → String) (address publicKey : String)
    (now : Nat) (db : Db) :
    (pubKeyFormatOk publicKey = false →
      registerAddressAction sign address publicKey now db =
        ⟨db, .error "Invalid public key format"⟩ ∧
      (∀ sign2, registerAddressAction sign2 address publicKey now db =
        registerAddressAction sign address publicKey now db)) ∧
    (pubKeyFormatOk publicKey = true →
      (registerAddressAction sign address publicKey now db).result ≠
        .error "Invalid public key format") := by
  constructor
  · intro hpk
    refine ⟨action_pubkey_reject sign address publicKey now db hpk, fun sign2 => ?_⟩
    rw [action_pubkey_reject sign address publicKey now db hpk,
      action_pubkey_reject sign2 address publicKey now db hpk]
  · intro hpk
    by_cases hav : (isAddressAvailable (jsToLowerCase (jsTrim address)) db).available = false
    · rw [action_unavailable sign address publicKey now db hpk hav]
      intro hc
      exact availabilityErrorMessage_ne _ (Except.error.inj hc)
    · have hav2 : (isAddressAvailable (jsToLowerCase (jsTrim address)) db).available = true := by
        revert hav
        cases (isAddressAvailable (jsToLowerCase (jsTrim address)) db).available <;> simp
      rw [action_available sign address publicKey now db hpk hav2]
      set trimmed := jsToLowerCase (jsTrim address) with htrimmed
      set sg := sign trimmed publicKey with hsg
      rcases validateAddress_cases trimmed with hva | hva | hva | hva | hva
      · cases hfind : findByAddress db (jsToLowerCase trimmed) with
        | some r =>
          rw [mutation_taken trimmed publicKey sg now db (by rw [hva]) (by rw [hfind]; rfl)]
          simp +decide
        | none =>
          rw [mutation_inserts trimmed publicKey sg now db (by rw [hva]) hfind]
          simp
      all_goals
        rw [mutation_validationError trimmed publicKey sg now db (by rw [hva]), hva]
        simp +decide

/-- Concrete instantiation of the amended claim C8: the malformed key "zz" is
rejected with "Invalid public key format" and the table is unchanged. -/
theorem c8_amended_witness :
    pubKeyFormatOk "zz" = false ∧
    registerAddressAction (fun _ _ => "sig") "alice" "zz" 0 [] =
      ⟨[], .error "Invalid public key format"⟩ :=
  ⟨by decide, ((c8_amended (fun _ _ => "sig") "alice" "zz" 0 []).1 (by decide)).1⟩

/-! ### Base64 (JS `btoa` / `atob`) -/

/-- The base64 alphabet character for a 6-bit value. -/
def b64Char (n : Nat) : Char :=
  if n < 26 then Char.ofNat (65 + n)
  else if n < 52 then Char.ofNat (97 + (n - 26))
  else if n < 62 then Char.ofNat (48 + (n - 52))
  else if n = 62 then '+'
  else '/'

/-- Decode one base64 alphabet character. -/
def b64Val (c : Char) : Option Nat :=
  if ('A' ≤ c) && (c ≤ 'Z') then some (c.toNat - 65)
  else if ('a' ≤ c) && (c ≤ 'z') then some (c.toNat - 97 + 26)
  else if ('0' ≤ c) && (c ≤ '9') then some (c.toNat - 48 + 52)
  else if c = '+' then some 62
  else if c = '/' then some 63
  else none

/-- ASCII whitespace stripped by forgiving-base64 decoding. -/
def isB64Ws (c : Char) : Bool :=
  c = ' ' || c = '\t' || c = '\n' || c = '\x0c' || c = '\r'

theorem b64Val_b64Char : ∀ n < 64, b64Val (b64Char n) = some n := by decide

theorem b64Char_ne_pad : ∀ n < 64, b64Char n ≠ '=' := by decide

theorem b64Char_not_ws : ∀ n < 64, isB64Ws (b64Char n) = false := by decide

/-- Core of JS `btoa` on a byte list (each byte < 256). -/
def btoaCore : List Nat → List Char
  | [] => []
  | [b0] => [b64Char (b0 / 4), b64Char (b0 % 4 * 16), '=', '=']
  | [b0, b1] => [b64Char (b0 / 4), b64Char (b0 % 4 * 16 + b1 / 16), b64Char (b1 % 16 * 4), '=']
  | b0 :: b1 :: b2 :: rest =>
    b64Char (b0 / 4) :: b64Char (b0 % 4 * 16 + b1 / 16) :: b64Char (b1 % 16 * 4 + b2 / 64) ::
      b64Char (b2 % 64) :: btoaCore rest

/-- Core of JS `atob` (forgiving base64) on a whitespace-free character list. -/
def atobCore : List Char → Option (List Nat)
  | [] => some []
  | [_] => none
  | [c0, c1] => do
    let v0 ← b64Val c0
    let v1 ← b64Val c1
    some [v0 * 4 + v1 / 16]
  | [c0, c1, c2] => do
    let v0 ← b64Val c0
    let v1 ← b64Val c1
    let v2 ← b64Val c2
    some [v0 * 4 + v1 / 16, v1 % 16 * 16 + v2 / 4]
  | c0 :: c1 :: c2 :: c3 :: rest =>
    if rest = [] ∧ c2 = '=' ∧ c3 = '=' then do
      let v0 ← b64Val c0
      let v1 ← b64Val c1
      some [v0 * 4 + v1 / 16]
    else if rest = [] ∧ c3 = '=' then do
      let v0 ← b64Val c0
      let v1 ← b64Val c1
      let v2 ← b64Val c2
      some [v0 * 4 + v1 / 16, v1 % 16 * 16 + v2 / 4]
    else do
      let v0 ← b64Val c0
      let v1 ← b64Val c1
      let v2 ← b64Val c2
      let v3 ← b64Val c3
      let tail ← atobCore rest
      some ((v0 * 4 + v1 / 16) :: (v1 % 16 * 16 + v2 / 4) :: (v2 % 4 * 64 + v3) :: tail)

/-- Model of JS `btoa` (producing the base64 string of a byte list). -/
def btoa (l : List Nat) : String := String.mk (btoaCore l)

/-- Model of JS `atob` (decoding a base64 string to bytes; `none` = thrown
`InvalidCharacterError`). -/
def atob (s : String) : Option (List Nat) :=
  atobCore (s.data.filter (fun c => !isB64Ws c))

theorem atobCore_btoaCore : ∀ l : List Nat, (∀ b ∈ l, b < 256) →
    atobCore (btoaCore l) = some l := by
  intro l
  induction l using btoaCore.induct with
  | case1 => intro _; rfl
  | case2 b0 =>
    intro h
    have hb0 : b0 < 256 := h b0 (by simp)
    simp only [btoaCore, atobCore]
    rw [if_pos (by simp)]
    rw [b64Val_b64Char (b0 / 4) (by omega), b64Val_b64Char (b0 % 4 * 16) (by omega)]
    simp only [Option.bind_eq_bind, Option.some_bind, Option.some.injEq, List.cons.injEq,
      and_true]
    omega
  | case3 b0 b1 =>
    intro h
    have hb0 : b0 < 256 := h b0 (by simp)
    have hb1 : b1 < 256 := h b1 (by simp)
    simp only [btoaCore, atobCore]
    rw [if_neg (by simp [b64Char_ne_pad (b1 % 16 * 4) (by omega)]), if_pos (by simp)]
    rw [b64Val_b64Char (b0 / 4) (by omega), b64Val_b64Char (b0 % 4 * 16 + b1 / 16) (by omega),
      b64Val_b64Char (b1 % 16 * 4) (by omega)]
    simp only [Option.bind_eq_bind, Option.some_bind, Option.some.injEq, List.cons.injEq,
      and_true]
    omega
  | case4 b0 b1 b2 rest ih =>
    intro h
    have hb0 : b0 < 256 := h b0 (by simp)
    have hb1 : b1 < 256 := h b1 (by simp)
    have hb2 : b2 < 256 := h b2 (by simp)
    have htail := ih (fun b hb => h b (by simp [hb]))
    simp only [btoaCore, atobCore]
    rw [if_neg (by simp [b64Char_ne_pad (b2 % 64) (by omega)]),
      if_neg (by simp [b64Char_ne_pad (b2 % 64) (by omega)])]
    rw [b64Val_b64Char (b0 / 4) (by omega), b64Val_b64Char (b0 % 4 * 16 + b1 / 16) (by omega),
      b64Val_b64Char (b1 % 16 * 4 + b2 / 64) (by omega), b64Val_b64Char (b2 % 64) (by omega)]
    simp only [Option.bind_eq_bind, Option.some_bind, htail, Option.some.injEq,
      List.cons.injEq, and_true]
    omega

theorem btoaCore_chars : ∀ l : List Nat, (∀ b ∈ l, b < 256) →
    ∀ c ∈ btoaCore l, (∃ v, v < 64 ∧ c = b64Char v) ∨ c = '=' := by
  intro l
  induction l using btoaCore.induct with
  | case1 => intro _ c hc; simp [btoaCore] at hc
  | case2 b0 =>
    intro h c hc
    have hb0 : b0 < 256 := h b0 (by simp)
    simp only [btoaCore, List.mem_cons, List.not_mem_nil, or_false] at hc
    rcases hc with rfl | rfl | rfl | rfl
    · exact Or.inl ⟨b0 / 4, by omega, rfl⟩
    · exact Or.inl ⟨b0 % 4 * 16, by omega, rfl⟩
    · exact Or.inr rfl
    · exact Or.inr rfl
  | case3 b0 b1 =>
    intro h c hc
    have hb0 : b0 < 256 := h b0 (by simp)
    have hb1 : b1 < 256 := h b1 (by simp)
    simp only [btoaCore, List.mem_cons, List.not_mem_nil, or_false] at hc
    rcases hc with rfl | rfl | rfl | rfl
    · exact Or.inl ⟨b0 / 4, by omega, rfl⟩
    · exact Or.inl ⟨b0 % 4 * 16 + b1 / 16, by omega, rfl⟩
    · exact Or.inl ⟨b1 % 16 * 4, by omega, rfl⟩
    · exact Or.inr rfl
  | case4 b0 b1 b2 rest ih =>
    intro h c hc
    have hb0 : b0 < 256 := h b0 (by simp)
    have hb1 : b1 < 256 := h b1 (by simp)
    have hb2 : b2 < 256 := h b2 (by simp)
    simp only [btoaCore, List.mem_cons] at hc
    rcases hc with rfl | rfl | rfl | rfl | hc
    · exact Or.inl ⟨b0 / 4, by omega, rfl⟩
    · exact Or.inl ⟨b0 % 4 * 16 + b1 / 16, by omega, rfl⟩
    · exact Or.inl ⟨b1 % 16 * 4 + b2 / 64, by omega, rfl⟩
    · exact Or.inl ⟨b2 % 64, by omega, rfl⟩
    · exact ih (fun b hb => h b (by simp [hb])) c hc

theorem filter_btoaCore (l : List Nat) (h : ∀ b ∈ l, b < 256) :
    (btoaCore l).filter (fun c => !isB64Ws c) = btoaCore l := by
  rw [List.filter_eq_self]
  intro c hc
  rcases btoaCore_chars l h c hc with ⟨v, hv, rfl⟩ | rfl
  · simp [b64Char_not_ws v hv]
  · decide

/-- Round trip: `atob` inverts `btoa` on byte lists. -/
theorem atob_btoa (l : List Nat) (h : ∀ b ∈ l, b < 256) : atob (btoa l) = some l := by
  unfold atob btoa
  show atobCore ((btoaCore l).filter (fun c => !isB64Ws c)) = some l
  rw [filter_btoaCore l h]
  exact atobCore_btoaCore l h

/-! ### UTF-8 (`TextEncoder` / `TextDecoder`) -/

/-- UTF-8 encoding of one unicode scalar value. -/
def utf8EncodeChar (c : Char) : List Nat :=
  let n := c.toNat
  if n < 128 then [n]
  else if n < 2048 then [192 + n / 64, 128 + n % 64]
  else if n < 65536 then [224 + n / 4096, 128 + n / 64 % 64, 128 + n % 64]
  else [240 + n / 262144, 128 + n / 4096 % 64, 128 + n / 64 % 64, 128 + n % 64]

/-- Model of `TextEncoder().encode` (UTF-8 bytes of a character list). -/
def utf8Encode (l : List Char) : List Nat := l.flatMap utf8EncodeChar

/-- A UTF-8 continuation byte. -/
def isContByte (b : Nat) : Bool := (128 ≤ b) && (b < 192)

/-- Model of `TextDecoder().decode` restricted to strictly valid UTF-8. -/
def utf8Decode : List Nat → Option (List Char)
  | [] => some []
  | b0 :: rest =>
    if b0 < 128 then (utf8Decode rest).map (fun cs => Char.ofNat b0 :: cs)
    else if b0 < 194 then none
    else if b0 < 224 then
      match rest with
      | [] => none
      | b1 :: rest2 =>
        if isContByte b1 then
          (utf8Decode rest2).map (fun cs => Char.ofNat ((b0 - 192) * 64 + (b1 - 128)) :: cs)
        else none
    else if b0 < 240 then
      match rest with
      | [] => none
      | b1 :: rest2 =>
        match rest2 with
        | [] => none
        | b2 :: rest3 =>
          if isContByte b1 && isContByte b2 then
            let n := (b0 - 224) * 4096 + (b1 - 128) * 64 + (b2 - 128)
            if 2048 ≤ n ∧ (n < 55296 ∨ 57344 ≤ n) then
              (utf8Decode rest3).map (fun cs => Char.ofNat n :: cs)
            else none
          else none
    else if b0 < 245 then
      match rest with
      | [] => none
      | b1 :: rest2 =>
        match rest2 with
        | [] => none
        | b2 :: rest3 =>
          match rest3 with
          | [] => none
          | b3 :: rest4 =>
            if isContByte b1 && isContByte b2 && isContByte b3 then
              let n := (b0 - 240) * 262144 + (b1 - 128) * 4096 + (b2 - 128) * 64 + (b3 - 128)
              if 65536 ≤ n ∧ n < 1114112 then
                (utf8Decode rest4).map (fun cs => Char.ofNat n :: cs)
              else none
            else none
    else none

theorem char_toNat_valid (c : Char) :
    c.toNat < 55296 ∨ (57343 < c.toNat ∧ c.toNat < 1114112) := c.valid

set_option maxRecDepth 8192 in
theorem utf8Decode_step1 (b0 : Nat) (rest : List Nat) (h : b0 < 128) :
    utf8Decode (b0 :: rest) = (utf8Decode rest).map (fun cs => Char.ofNat b0 :: cs) := by
  rw [utf8Decode.eq_def]
  dsimp only
  rw [if_pos h]

set_option maxRecDepth 8192 in
theorem utf8Decode_step2 (b0 b1 : Nat) (rest : List Nat)
    (h1 : ¬ b0 < 128) (h2 : ¬ b0 < 194) (h3 : b0 < 224) (hc : isContByte b1 = true) :
    utf8Decode (b0 :: b1 :: rest) =
      (utf8Decode rest).map (fun cs => Char.ofNat ((b0 - 192) * 64 + (b1 - 128)) :: cs) := by
  rw [utf8Decode.eq_def]
  dsimp only
  rw [if_neg h1, if_neg h2, if_pos h3, hc]
  simp

set_option maxRecDepth 8192 in
theorem utf8Decode_step3 (b0 b1 b2 : Nat) (rest : List Nat)
    (h1 : ¬ b0 < 128) (h2 : ¬ b0 < 194) (h3 : ¬ b0 < 224) (h4 : b0 < 240)
    (hc : (isContByte b1 && isContByte b2) = true)
    (hn : 2048 ≤ (b0 - 224) * 4096 + (b1 - 128) * 64 + (b2 - 128) ∧
      ((b0 - 224) * 4096 + (b1 - 128) * 64 + (b2 - 128) < 55296 ∨
        57344 ≤ (b0 - 224) * 4096 + (b1 - 128) * 64 + (b2 - 128))) :
    utf8Decode (b0 :: b1 :: b2 :: rest) =
      (utf8Decode rest).map
        (fun cs => Char.ofNat ((b0 - 224) * 4096 + (b1 - 128) * 64 + (b2 - 128)) :: cs) := by
  rw [utf8Decode.eq_def]
  dsimp only
  rw [if_neg h1, if_neg h2, if_neg h3, if_pos h4, hc]
  simp only [if_true]
  rw [if_pos hn]

set_option maxRecDepth 8192 in
theorem utf8Decode_step4 (b0 b1 b2 b3 : Nat) (rest : List Nat)
    (h1 : ¬ b0 < 128) (h2 : ¬ b0 < 194) (h3 : ¬ b0 < 224) (h4 : ¬ b0 < 240) (h5 : b0 < 245)
    (hc : (isContByte b1 && isContByte b2 && isContByte b3) = true)
    (hn : 65536 ≤ (b0 - 240) * 262144 + (b1 - 128) * 4096 + (b2 - 128) * 64 + (b3 - 128) ∧
      (b0 - 240) * 262144 + (b1 - 128) * 4096 + (b2 - 128) * 64 + (b3 - 128) < 1114112) :
    utf8Decode (b0 :: b1 :: b2 :: b3 :: rest) =
      (utf8Decode rest).map (fun cs =>
        Char.ofNat ((b0 - 240) * 262144 + (b1 - 128) * 4096 + (b2 - 128) * 64 + (b3 - 128))
          :: cs) := by
  rw [utf8Decode.eq_def]
  dsimp only
  rw [if_neg h1, if_neg h2, if_neg h3, if_neg h4, if_pos h5, hc]
  simp only [if_true]
  rw [if_pos hn]

theorem utf8Decode_char_append (c : Char) (tail : List Nat) (cs : List Char)
    (htail : utf8Decode tail = some cs) :
    utf8Decode (utf8EncodeChar c ++ tail) = some (c :: cs) := by
  have hv := char_toNat_valid c
  by_cases h1 : c.toNat < 128
  · simp only [utf8EncodeChar, if_pos h1, List.cons_append, List.nil_append]
    rw [utf8Decode_step1 c.toNat tail h1, htail]
    simp only [Option.map_some', Char.ofNat_toNat]
  · by_cases h2 : c.toNat < 2048
    · simp only [utf8EncodeChar, if_neg h1, if_pos h2, List.cons_append, List.nil_append]
      rw [utf8Decode_step2 (192 + c.toNat / 64) (128 + c.toNat % 64) tail
        (by omega) (by omega) (by omega)
        (by simp only [isContByte, Bool.and_eq_true, decide_eq_true_eq]; omega)]
      rw [htail]
      have e : (192 + c.toNat / 64 - 192) * 64 + (128 + c.toNat % 64 - 128) = c.toNat := by
        omega
      simp only [Option.map_some', e, Char.ofNat_toNat]
    · by_cases h3 : c.toNat < 65536
      · simp only [utf8EncodeChar, if_neg h1, if_neg h2, if_pos h3, List.cons_append,
          List.nil_append]
        have e : (224 + c.toNat / 4096 - 224) * 4096 + (128 + c.toNat / 64 % 64 - 128) * 64 +
            (128 + c.toNat % 64 - 128) = c.toNat := by omega
        have hsur : c.toNat < 55296 ∨ 57344 ≤ c.toNat := by
          rcases hv with h | h <;> omega
        rw [utf8Decode_step3 (224 + c.toNat / 4096) (128 + c.toNat / 64 % 64)
          (128 + c.toNat % 64) tail (by omega) (by omega) (by omega) (by omega)
          (by simp only [isContByte, Bool.and_eq_true, decide_eq_true_eq]; omega)
          (by rw [e]; exact ⟨by omega, hsur⟩)]
        rw [htail]
        simp only [Option.map_some', e, Char.ofNat_toNat]
      · have h4 : c.toNat < 1114112 := by rcases hv with h | h <;> omega
        simp only [utf8EncodeChar, if_neg h1, if_neg h2, if_neg h3, List.cons_append,
          List.nil_append]
        have e : (240 + c.toNat / 262144 - 240) * 262144 + (128 + c.toNat / 4096 % 64 - 128)
            * 4096 + (128 + c.toNat / 64 % 64 - 128) * 64 + (128 + c.toNat % 64 - 128)
            = c.toNat := by omega
        rw [utf8Decode_step4 (240 + c.toNat / 262144) (128 + c.toNat / 4096 % 64)
          (128 + c.toNat / 64 % 64) (128 + c.toNat % 64) tail (by omega) (by omega) (by omega)
          (by omega) (by omega)
          (by simp only [isContByte, Bool.and_eq_true, decide_eq_true_eq]; omega)
          (by rw [e]; exact ⟨by omega, h4⟩)]
        rw [htail]
        simp only [Option.map_some', e, Char.ofNat_toNat]

/-- Round trip: decoding inverts UTF-8 encoding. -/
theorem utf8Decode_encode (l : List Char) : utf8Decode (utf8Encode l) = some l := by
  induction l with
  | nil => rfl
  | cons c cs ih =>
    simp only [utf8Encode, List.flatMap_cons]
    exact utf8Decode_char_append c (utf8Encode cs) cs ih

/-- Every byte produced by the UTF-8 encoder is below 256. -/
theorem utf8Encode_lt_256 (l : List Char) : ∀ b ∈ utf8Encode l, b < 256 := by
  induction l with
  | nil => simp [utf8Encode]
  | cons c cs ih =>
    intro b hb
    simp only [utf8Encode, List.flatMap_cons, List.mem_append] at hb
    rcases hb with hb | hb
    · have hv := char_toNat_valid c
      simp only [utf8EncodeChar] at hb
      split_ifs at hb <;> simp only [List.mem_cons, List.not_mem_nil, or_false] at hb <;>
        rcases hb with rfl | rfl | rfl | rfl <;> omega
    · exact ih b hb

/-! ### JSON (`JSON.stringify` / `JSON.parse`, integer numerals, arrays omitted
as the repository never produces them) -/

/-- JSON values (numbers restricted to integers, arrays omitted). -/
inductive Json where
  | null : Json
  | bool (b : Bool) : Json
  | num (n : Int) : Json
  | str (s : String) : Json
  | obj (fields : List (String × Json)) : Json

/-- JSON whitespace. -/
def isJsonWs (c : Char) : Bool := c = ' ' || c = '\t' || c = '\n' || c = '\r'

/-- Skip JSON whitespace. -/
def skipWs (cs : List Char) : List Char := cs.dropWhile isJsonWs

/-- A hex digit value. -/
def hexVal (c : Char) : Option Nat :=
  if ('0' ≤ c) && (c ≤ '9') then some (c.toNat - 48)
  else if ('a' ≤ c) && (c ≤ 'f') then some (c.toNat - 97 + 10)
  else if ('A' ≤ c) && (c ≤ 'F') then some (c.toNat - 65 + 10)
  else none

/-- Lowercase hex digit character. -/
def hexDigitChar (n : Nat) : Char :=
  if n < 10 then Char.ofNat (48 + n) else Char.ofNat (97 + (n - 10))

/-- JSON string escaping of one character (as `JSON.stringify` does). -/
def escapeChar (c : Char) : List Char :=
  if c = '"' then ['\\', '"']
  else if c = '\\' then ['\\', '\\']
  else if c = Char.ofNat 8 then ['\\', 'b']
  else if c = Char.ofNat 9 then ['\\', 't']
  else if c = Char.ofNat 10 then ['\\', 'n']
  else if c = Char.ofNat 12 then ['\\', 'f']
  else if c = Char.ofNat 13 then ['\\', 'r']
  else if c.toNat < 32 then
    ['\\', 'u', '0', '0', hexDigitChar (c.toNat / 16), hexDigitChar (c.toNat % 16)]
  else [c]

/-- JSON string escaping. -/
def escapeString (s : String) : List Char := s.data.flatMap escapeChar

/-- A quoted JSON string literal. -/
def quoteString (s : String) : List Char := '"' :: (escapeString s ++ ['"'])

/-- Body of a JSON string literal (after the opening quote), returning the
unescaped characters and the remaining input. -/
def parseStringBody : List Char → Option (List Char × List Char)
  | [] => none
  | c :: rest =>
    if c = '"' then some ([], rest)
    else if c = '\\' then
      match rest with
      | [] => none
      | e :: rest2 =>
        if e = 'u' then
          match rest2 with
          | h1 :: h2 :: h3 :: h4 :: rest3 =>
            match hexVal h1, hexVal h2, hexVal h3, hexVal h4 with
            | some v1, some v2, some v3, some v4 =>
              let n := v1 * 4096 + v2 * 256 + v3 * 16 + v4
              if n < 55296 ∨ 57344 ≤ n then
                (parseStringBody rest3).map (fun pr => (Char.ofNat n :: pr.1, pr.2))
              else none
            | _, _, _, _ => none
          | _ => none
        else
          match (if e = '"' then some '"'
            else if e = '\\' then some '\\'
            else if e = '/' then some '/'
            else if e = 'b' then some (Char.ofNat 8)
            else if e = 'f' then some (Char.ofNat 12)
            else if e = 'n' then some (Char.ofNat 10)
            else if e = 'r' then some (Char.ofNat 13)
            else if e = 't' then some (Char.ofNat 9)
            else none) with
          | some c2 => (parseStringBody rest2).map (fun pr => (c2 :: pr.1, pr.2))
          | none => none
    else if c.toNat < 32 then none
    else (parseStringBody rest).map (fun pr => (c :: pr.1, pr.2))

/-- Span of decimal digits. -/
def takeDigits : List Char → (List Char × List Char)
  | [] => ([], [])
  | c :: rest =>
    if ('0' ≤ c) && (c ≤ '9') then
      let pr := takeDigits rest
      (c :: pr.1, pr.2)
    else ([], c :: rest)

/-- Numeric value of a digit list (most significant first). -/
def digitsToNat (acc : Nat) : List Char → Nat
  | [] => acc
  | c :: rest => digitsToNat (acc * 10 + (c.toNat - 48)) rest

/-- True when the remaining input does not continue the numeral with a
fraction or exponent. -/
def numTail (r : List Char) : Bool :=
  match r with
  | [] => true
  | c :: _ => !(c = '.' || c = 'e' || c = 'E')

/-- Integer JSON numeral parser (fractions and exponents unsupported by the
model). -/
def parseNumber (cs : List Char) : Option (Int × List Char) :=
  match cs with
  | [] => none
  | c :: rest =>
    if c = '-' then
      let pr := takeDigits rest
      if pr.1 = [] then none
      else if numTail pr.2 then some (-(digitsToNat 0 pr.1 : Int), pr.2) else none
    else
      let pr := takeDigits (c :: rest)
      if pr.1 = [] then none
      else if numTail pr.2 then some ((digitsToNat 0 pr.1 : Int), pr.2) else none

/-- Fuel-indexed JSON parser. `mode = false` parses one value; `mode = true`
parses the members of an object after its opening brace (returning them as an
`obj`). -/
def parseJ : Nat → Bool → List Char → Option (Json × List Char)
  | 0, _, _ => none
  | fuel + 1, false, cs =>
    match skipWs cs with
    | [] => none
    | c :: rest =>
      if c = 'n' then
        match rest with
        | 'u' :: 'l' :: 'l' :: r => some (.null, r)
        | _ => none
      else if c = 't' then
        match rest with
        | 'r' :: 'u' :: 'e' :: r => some (.bool true, r)
        | _ => none
      else if c = 'f' then
        match rest with
        | 'a' :: 'l' :: 's' :: 'e' :: r => some (.bool false, r)
        | _ => none
      else if c = '"' then
        (parseStringBody rest).map (fun pr => (.str (String.mk pr.1), pr.2))
      else if c = '\x7b' then
        match skipWs rest with
        | [] => none
        | c1 :: rest1 =>
          if c1 = '\x7d' then some (.obj [], rest1) else parseJ fuel true (c1 :: rest1)
      else
        (parseNumber (c :: rest)).map (fun pr => (.num pr.1, pr.2))
  | fuel + 1, true, cs =>
    match skipWs cs with
    | [] => none
    | c0 :: rest =>
      if c0 = '"' then
        match parseStringBody rest with
        | none => none
        | some (key, r1) =>
          match skipWs r1 with
          | [] => none
          | c2 :: r3 =>
            if c2 = ':' then
              match parseJ fuel false r3 with
              | none => none
              | some (v, r4) =>
                match skipWs r4 with
                | [] => none
                | c3 :: r6 =>
                  if c3 = ',' then
                    match parseJ fuel true r6 with
                    | some (.obj fields, r7) => some (.obj ((String.mk key, v) :: fields), r7)
                    | _ => none
                  else if c3 = '\x7d' then some (.obj [(String.mk key, v)], r6)
                  else none
            else none
      else none

/-- Model of `JSON.parse` (within the fragment described above). -/
def jsonParse (s : String) : Option Json :=
  match parseJ (s.data.length + 1) false s.data with
  | some (v, rest) => if skipWs rest = [] then some v else none
  | none => none

/-- Field access `backup.key` on a parsed JSON value (`none` = `undefined`). -/
def jsonGet : Json → String → Option Json
  | .obj fields, key => (fields.find? (fun f => f.1 = key)).map (fun f => f.2)
  | _, _ => none

/-- JS truthiness test (negated) for a possibly-undefined JSON value. -/
def jsonFalsy : Option Json → Bool
  | none => true
  | some .null => true
  | some (.bool b) => !b
  | some (.num n) => n = 0
  | some (.str s) => s = ""
  | some (.obj _) => false

/-- The characters of `toString` of an integer. -/
def intToChars (n : Int) : List Char := (toString n).data

/-- `JSON.stringify` of the backup bundle object literal
`{version: 1, handle, privateKey, publicKey, signature, timestamp}` (fields in
insertion order, as V8 serialises it). -/
def stringifyBackup (handle privateKey publicKey signature timestamp : String) : List Char :=
  '\x7b' :: (quoteString "version" ++ [':'] ++ intToChars 1 ++ [','] ++
    quoteString "handle" ++ [':'] ++ quoteString handle ++ [','] ++
    quoteString "privateKey" ++ [':'] ++ quoteString privateKey ++ [','] ++
    quoteString "publicKey" ++ [':'] ++ quoteString publicKey ++ [','] ++
    quoteString "signature" ++ [':'] ++ quoteString signature ++ [','] ++
    quoteString "timestamp" ++ [':'] ++ quoteString timestamp ++ ['\x7d'])

/-- The parsed JSON value of a backup bundle. -/
def backupJson (handle privateKey publicKey signature timestamp : String) : Json :=
  .obj [("version", .num 1), ("handle", .str handle), ("privateKey", .str privateKey),
    ("publicKey", .str publicKey), ("signature", .str signature),
    ("timestamp", .str timestamp)]

/-! ### Backup codec (src/lib/crypto.ts) -/

/-- A stored keypair (hex strings). -/
structure KeyPair where
  privateKey : String
  publicKey : String

deriving instance DecidableEq for KeyPair

/-- `saveKeyPair` from src/lib/crypto.ts. -/
def saveKeyPair (store : Store) (kp : KeyPair) : Store :=
  setItem (setItem store PRIVATE_KEY kp.privateKey) PUBLIC_KEY kp.publicKey

/-- `loadKeyPair` from src/lib/crypto.ts (`null`/empty entries load as absent). -/
def loadKeyPair (store : Store) : Option KeyPair :=
  match getItem store PRIVATE_KEY, getItem store PUBLIC_KEY with
  | some p, some q => if p = "" ∨ q = "" then none else some ⟨p, q⟩
  | _, _ => none

/-- `saveMeshHandle` from src/lib/crypto.ts. -/
def saveMeshHandle (store : Store) (handle : String) : Store :=
  setItem store MESH_HANDLE handle

/-- `loadMeshHandle` from src/lib/crypto.ts. -/
def loadMeshHandle (store : Store) : Option String := getItem store MESH_HANDLE

/-- `saveAuthoritySignature` from src/lib/crypto.ts. -/
def saveAuthoritySignature (store : Store) (signature : String) : Store :=
  setItem store AUTHORITY_SIGNATURE signature

/-- `loadAuthoritySignature` from src/lib/crypto.ts. -/
def loadAuthoritySignature (store : Store) : Option String :=
  getItem store AUTHORITY_SIGNATURE

/-- `base64Encode` from src/lib/crypto.ts: UTF-8 encode, then `btoa`. -/
def base64Encode (s : String) : String := btoa (utf8Encode s.data)

/-- `base64Decode` from src/lib/crypto.ts: `atob`, then UTF-8 decode. -/
def base64Decode (s : String) : Option String :=
  match atob s with
  | some bytes => (utf8Decode bytes).map String.mk
  | none => none

/-- `generateBackupCode` from src/lib/crypto.ts. `ts` stands for the
`new Date().toISOString()` timestamp; `JSON.stringify` of the bundle object is
modelled by `stringifyBackup`. -/
def generateBackupCode (store : Store) (ts : String) : Except String String :=
  match loadKeyPair store, loadMeshHandle store, loadAuthoritySignature store with
  | some kp, some handle, some signature =>
    if handle = "" ∨ signature = "" then
      .error "Missing credentials - cannot generate backup"
    else
      .ok (base64Encode (String.mk
        (stringifyBackup handle kp.privateKey kp.publicKey signature ts)))
  | _, _, _ => .error "Missing credentials - cannot generate backup"

/-- The base64+JSON decoding stage inside `restoreFromBackup`. -/
def decodeBackupJson (backupCode : String) : Option Json :=
  match base64Decode backupCode with
  | some json => jsonParse json
  | none => none

/-- `restoreFromBackup` from src/lib/crypto.ts. Returns the store after the
operation together with success or the thrown message (the catch block rewraps
every failure with the `Failed to restore backup: ` preamble; decode/parse
failures are represented by the `SyntaxError` message, and a truthy
non-string credential would be rejected by the secure store's string check). -/
def restoreFromBackup (backupCode : String) (store : Store) : Store × Except String Unit :=
  match decodeBackupJson backupCode with
  | none => (store, .error "Failed to restore backup: SyntaxError")
  | some backup =>
    match jsonGet backup "version" with
    | some (.num n) =>
      if n ≠ 1 then (store, .error "Failed to restore backup: Unsupported backup version")
      else if jsonFalsy (jsonGet backup "handle") || jsonFalsy (jsonGet backup "privateKey") ||
          jsonFalsy (jsonGet backup "publicKey") || jsonFalsy (jsonGet backup "signature") then
        (store, .error "Failed to restore backup: Invalid backup format")
      else
        match jsonGet backup "privateKey", jsonGet backup "publicKey" with
        | some (.str p), some (.str q) =>
          let st1 := saveKeyPair store ⟨p, q⟩
          match jsonGet backup "handle" with
          | some (.str h) =>
            let st2 := saveMeshHandle st1 h
            match jsonGet backup "signature" with
            | some (.str sg) => (saveAuthoritySignature st2 sg, .ok ())
            | _ => (st2, .error "Failed to restore backup: Invalid value provided")
          | _ => (st1, .error "Failed to restore backup: Invalid value provided")
        | _, _ => (store, .error "Failed to restore backup: Invalid value provided")
    | _ => (store, .error "Failed to restore backup: Unsupported backup version")

/-! ### Parser round-trip lemmas -/

theorem string_mk_data (s : String) : String.mk s.data = s := by
  cases s
  rfl

theorem skipWs_cons (c : Char) (r : List Char) (h : isJsonWs c = false) :
    skipWs (c :: r) = c :: r := by
  simp [skipWs, List.dropWhile_cons, h]

theorem hexVal_hexDigitChar : ∀ n < 16, hexVal (hexDigitChar n) = some n := by decide

set_option maxRecDepth 8192 in
theorem parseStringBody_escape (l : List Char) (rest : List Char) :
    parseStringBody (l.flatMap escapeChar ++ ('"' :: rest)) = some (l, rest) := by
  induction l with
  | nil =>
    rw [List.flatMap_nil, List.nil_append, parseStringBody.eq_def]
    simp
  | cons c cs ih =>
    rw [List.flatMap_cons, List.append_assoc]
    by_cases h1 : c = '"'
    · subst h1
      simp only [show escapeChar '"' = ['\\', '"'] from rfl, List.cons_append, List.nil_append]
      rw [parseStringBody.eq_def]
      simp [ih]
    · by_cases h2 : c = '\\'
      · subst h2
        simp only [show escapeChar '\\' = ['\\', '\\'] from rfl, List.cons_append,
          List.nil_append]
        rw [parseStringBody.eq_def]
        simp [ih]
      · by_cases h3 : c = Char.ofNat 8
        · subst h3
          simp only [show escapeChar (Char.ofNat 8) = ['\\', 'b'] from rfl, List.cons_append,
            List.nil_append]
          rw [parseStringBody.eq_def]
          simp [ih]
        · by_cases h4 : c = Char.ofNat 9
          · subst h4
            simp only [show escapeChar (Char.ofNat 9) = ['\\', 't'] from rfl,
              List.cons_append, List.nil_append]
            rw [parseStringBody.eq_def]
            simp [ih]
          · by_cases h5 : c = Char.ofNat 10
            · subst h5
              simp only [show escapeChar (Char.ofNat 10) = ['\\', 'n'] from rfl,
                List.cons_append, List.nil_append]
              rw [parseStringBody.eq_def]
              simp [ih]
            · by_cases h6 : c = Char.ofNat 12
              · subst h6
                simp only [show escapeChar (Char.ofNat 12) = ['\\', 'f'] from rfl,
                  List.cons_append, List.nil_append]
                rw [parseStringBody.eq_def]
                simp [ih]
              · by_cases h7 : c = Char.ofNat 13
                · subst h7
                  simp only [show escapeChar (Char.ofNat 13) = ['\\', 'r'] from rfl,
                    List.cons_append, List.nil_append]
                  rw [parseStringBody.eq_def]
                  simp [ih]
                · by_cases h8 : c.toNat < 32
                  · simp only [escapeChar, if_neg h1, if_neg h2, if_neg h3, if_neg h4,
                      if_neg h5, if_neg h6, if_neg h7, if_pos h8, List.cons_append,
                      List.nil_append]
                    rw [parseStringBody.eq_def]
                    have e : (0 : Nat) * 4096 + 0 * 256 + c.toNat / 16 * 16 + c.toNat % 16
                        = c.toNat := by omega
                    have e2 : c.toNat / 16 * 16 + c.toNat % 16 = c.toNat := by omega
                    simp [hexVal_hexDigitChar (c.toNat / 16) (by omega),
                      hexVal_hexDigitChar (c.toNat % 16) (by omega),
                      show hexVal '0' = some 0 from rfl, ih, e, e2, Char.ofNat_toNat]
                    omega
                  · simp only [escapeChar, if_neg h1, if_neg h2, if_neg h3, if_neg h4,
                      if_neg h5, if_neg h6, if_neg h7, if_neg h8, List.cons_append,
                      List.nil_append]
                    rw [parseStringBody.eq_def]
                    dsimp only
                    rw [if_neg h1, if_neg h2, if_neg h8]
                    simp [ih]

theorem escapeString_eq (s : String) : escapeString s = s.data.flatMap escapeChar := rfl

set_option maxRecDepth 8192 in
theorem parseJ_str (fuel : Nat) (s : String) (rest : List Char) :
    parseJ (fuel + 1) false ('"' :: (escapeString s ++ ('"' :: rest)))
      = some (.str s, rest) := by
  rw [show fuel + 1 = Nat.succ fuel from rfl, parseJ.eq_def]
  dsimp only
  rw [skipWs_cons _ _ (by decide)]
  dsimp only
  simp only [Char.reduceEq, reduceIte]
  rw [escapeString_eq, parseStringBody_escape s.data rest]
  simp [string_mk_data]

theorem takeDigits_comma (r : List Char) : takeDigits (',' :: r) = ([], ',' :: r) := by
  rw [takeDigits.eq_def]
  simp

theorem takeDigits_one (r : List Char) : takeDigits ('1' :: (',' :: r)) = (['1'], ',' :: r) := by
  rw [takeDigits.eq_def]
  simp [takeDigits_comma]

theorem parseNumber_one (r : List Char) :
    parseNumber ('1' :: (',' :: r)) = some (1, ',' :: r) := by
  rw [parseNumber.eq_def]
  simp only [reduceIte, takeDigits_one]
  simp [numTail, show digitsToNat 0 ['1'] = 1 from rfl]

set_option maxRecDepth 8192 in
theorem parseJ_one (fuel : Nat) (r : List Char) :
    parseJ (fuel + 1) false ('1' :: (',' :: r)) = some (.num 1, ',' :: r) := by
  rw [show fuel + 1 = Nat.succ fuel from rfl, parseJ.eq_def]
  try dsimp only
  rw [skipWs_cons _ _ (by decide)]
  try dsimp only
  simp only [Char.reduceEq, reduceIte]
  rw [parseNumber_one]
  rfl

set_option maxRecDepth 8192 in
theorem parseJ_members_cons_str (fuel : Nat) (key val : String) (Z : List Char)
    (fields : List (String × Json)) (final : List Char)
    (hrest : parseJ (fuel + 1) true Z = some (.obj fields, final)) :
    parseJ (fuel + 2) true
      ('"' :: (escapeString key ++ ('"' :: (':' :: ('"' :: (escapeString val ++
        ('"' :: (',' :: Z))))))))
      = some (.obj ((key, .str val) :: fields), final) := by
  rw [show fuel + 2 = Nat.succ (fuel + 1) from rfl, parseJ.eq_def]
  try dsimp only
  rw [skipWs_cons _ _ (by decide)]
  try dsimp only
  rw [escapeString_eq key, parseStringBody_escape key.data]
  try dsimp only
  rw [skipWs_cons _ _ (by decide)]
  try dsimp only
  rw [parseJ_str fuel val (',' :: Z)]
  try dsimp only
  rw [skipWs_cons _ _ (by decide)]
  try dsimp only
  rw [hrest]
  simp [string_mk_data]

set_option maxRecDepth 8192 in
theorem parseJ_members_last_str (fuel : Nat) (key val : String) (r : List Char) :
    parseJ (fuel + 2) true
      ('"' :: (escapeString key ++ ('"' :: (':' :: ('"' :: (escapeString val ++
        ('"' :: ('\x7d' :: r))))))))
      = some (.obj [(key, .str val)], r) := by
  rw [show fuel + 2 = Nat.succ (fuel + 1) from rfl, parseJ.eq_def]
  try dsimp only
  rw [skipWs_cons _ _ (by decide)]
  try dsimp only
  rw [escapeString_eq key, parseStringBody_escape key.data]
  try dsimp only
  rw [skipWs_cons _ _ (by decide)]
  try dsimp only
  rw [parseJ_str fuel val ('\x7d' :: r)]
  try dsimp only
  rw [skipWs_cons _ _ (by decide)]
  simp [string_mk_data]

set_option maxRecDepth 8192 in
theorem parseJ_members_version (fuel : Nat) (Z : List Char)
    (fields : List (String × Json)) (final : List Char)
    (hrest : parseJ (fuel + 1) true Z = some (.obj fields, final)) :
    parseJ (fuel + 2) true
      ('"' :: (escapeString "version" ++ ('"' :: (':' :: ('1' :: (',' :: Z))))))
      = some (.obj (("version", .num 1) :: fields), final) := by
  rw [show fuel + 2 = Nat.succ (fuel + 1) from rfl, parseJ.eq_def]
  try dsimp only
  rw [skipWs_cons _ _ (by decide)]
  try dsimp only
  rw [escapeString_eq "version", parseStringBody_escape "version".data]
  try dsimp only
  rw [skipWs_cons _ _ (by decide)]
  try dsimp only
  rw [parseJ_one fuel Z]
  try dsimp only
  rw [skipWs_cons _ _ (by decide)]
  try dsimp only
  rw [hrest]
  simp [string_mk_data]

set_option maxRecDepth 8192 in
theorem parseJ_backup (fuel : Nat) (handle privateKey publicKey signature ts : String) :
    parseJ (fuel + 8) false (stringifyBackup handle privateKey publicKey signature ts)
      = some (backupJson handle privateKey publicKey signature ts, []) := by
  have h6 := parseJ_members_last_str fuel "timestamp" ts []
  have h5 := parseJ_members_cons_str (fuel + 1) "signature" signature _ _ _ h6
  have h4 := parseJ_members_cons_str (fuel + 2) "publicKey" publicKey _ _ _ h5
  have h3 := parseJ_members_cons_str (fuel + 3) "privateKey" privateKey _ _ _ h4
  have h2 := parseJ_members_cons_str (fuel + 4) "handle" handle _ _ _ h3
  have h1 := parseJ_members_version (fuel + 5) _ _ _ h2
  simp only [stringifyBackup, quoteString, show intToChars 1 = ['1'] from rfl,
    List.append_assoc, List.cons_append, List.singleton_append, List.nil_append]
  rw [show fuel + 8 = Nat.succ (fuel + 7) from rfl, parseJ.eq_def]
  try dsimp only
  rw [skipWs_cons _ _ (by decide)]
  try dsimp only
  simp only [Char.reduceEq, reduceIte]
  rw [skipWs_cons _ _ (by decide)]
  try dsimp only
  simp only [Char.reduceEq, reduceIte]
  exact h1

set_option maxRecDepth 8192 in
theorem jsonParse_backup (handle privateKey publicKey signature ts : String) :
    jsonParse (String.mk (stringifyBackup handle privateKey publicKey signature ts))
      = some (backupJson handle privateKey publicKey signature ts) := by
  unfold jsonParse
  obtain ⟨k, hk⟩ : ∃ k,
      (String.mk (stringifyBackup handle privateKey publicKey signature ts)).data.length + 1
        = k + 8 := by
    refine ⟨(String.mk (stringifyBackup handle privateKey publicKey signature ts)).data.length
      - 7, ?_⟩
    have hlen : 7 ≤ (stringifyBackup handle privateKey publicKey signature ts).length := by
      simp only [stringifyBackup, quoteString, List.length_cons, List.length_append]
      omega
    have : (String.mk (stringifyBackup handle privateKey publicKey signature ts)).data
        = stringifyBackup handle privateKey publicKey signature ts := rfl
    rw [this]
    omega
  rw [hk]
  rw [show (String.mk (stringifyBackup handle privateKey publicKey signature ts)).data
    = stringifyBackup handle privateKey publicKey signature ts from rfl]
  rw [parseJ_backup]
  rfl

/-- Round trip: `base64Decode` inverts `base64Encode`. -/
theorem base64Decode_encode (s : String) : base64Decode (base64Encode s) = some s := by
  unfold base64Encode base64Decode
  rw [atob_btoa (utf8Encode s.data) (utf8Encode_lt_256 s.data)]
  simp [utf8Decode_encode, string_mk_data]

theorem decodeBackupJson_encode (handle privateKey publicKey signature ts : String) :
    decodeBackupJson (base64Encode (String.mk
        (stringifyBackup handle privateKey publicKey signature ts)))
      = some (backupJson handle privateKey publicKey signature ts) := by
  unfold decodeBackupJson
  rw [base64Decode_encode]
  exact jsonParse_backup handle privateKey publicKey signature ts

/-- Claim C5: whenever the secure store holds a (non-empty) keypair, handle and
authority signature, restoring from a freshly generated backup code succeeds
and re-persists exactly the same private key, public key, handle and
signature, regardless of the store it is restored into. -/
theorem c5_backup_roundtrip (store store2 : Store) (kp : KeyPair)
    (handle signature ts : String)
    (hkp : loadKeyPair store = some kp)
    (hh : loadMeshHandle store = some handle) (hh2 : handle ≠ "")
    (hs : loadAuthoritySignature store = some signature) (hs2 : signature ≠ "") :
    ∃ code, generateBackupCode store ts = .ok code ∧
      (restoreFromBackup code store2).2 = .ok () ∧
      (restoreFromBackup code store2).1 PRIVATE_KEY = some kp.privateKey ∧
      (restoreFromBackup code store2).1 PUBLIC_KEY = some kp.publicKey ∧
      (restoreFromBackup code store2).1 MESH_HANDLE = some handle ∧
      (restoreFromBackup code store2).1 AUTHORITY_SIGNATURE = some signature := by
  have hkp2 : ¬ kp.privateKey = "" ∧ ¬ kp.publicKey = "" := by
    unfold loadKeyPair at hkp
    rcases hP : getItem store PRIVATE_KEY with _ | p
    · rw [hP] at hkp
      exact absurd hkp (by simp)
    · rcases hQ : getItem store PUBLIC_KEY with _ | q
      · rw [hP, hQ] at hkp
        exact absurd hkp (by simp)
      · rw [hP, hQ] at hkp
        dsimp only at hkp
        by_cases he : p = "" ∨ q = ""
        · rw [if_pos he] at hkp
          exact absurd hkp (by simp)
        · rw [if_neg he] at hkp
          have hkq := Option.some.inj hkp
          subst hkq
          push_neg at he
          exact ⟨he.1, he.2⟩
  have hgen : generateBackupCode store ts = .ok (base64Encode (String.mk
      (stringifyBackup handle kp.privateKey kp.publicKey signature ts))) := by
    unfold generateBackupCode
    rw [hkp, hh, hs]
    dsimp only
    rw [if_neg (by simp [hh2, hs2])]
  refine ⟨_, hgen, ?_⟩
  have hrest : restoreFromBackup (base64Encode (String.mk
      (stringifyBackup handle kp.privateKey kp.publicKey signature ts))) store2 =
      (saveAuthoritySignature (saveMeshHandle (saveKeyPair store2
        ⟨kp.privateKey, kp.publicKey⟩) handle) signature, .ok ()) := by
    unfold restoreFromBackup
    rw [decodeBackupJson_encode]
    have hv : jsonGet (backupJson handle kp.privateKey kp.publicKey signature ts) "version"
        = some (.num 1) := rfl
    have hha : jsonGet (backupJson handle kp.privateKey kp.publicKey signature ts) "handle"
        = some (.str handle) := rfl
    have hpa : jsonGet (backupJson handle kp.privateKey kp.publicKey signature ts)
        "privateKey" = some (.str kp.privateKey) := rfl
    have hqa : jsonGet (backupJson handle kp.privateKey kp.publicKey signature ts)
        "publicKey" = some (.str kp.publicKey) := rfl
    have hsa : jsonGet (backupJson handle kp.privateKey kp.publicKey signature ts)
        "signature" = some (.str signature) := rfl
    dsimp only
    rw [hv]
    dsimp only
    rw [if_neg (by simp)]
    rw [hha, hpa, hqa, hsa]
    rw [if_neg (by simp [jsonFalsy, hh2, hs2, hkp2.1, hkp2.2])]
  rw [hrest]
  refine ⟨rfl, ?_, ?_, ?_, ?_⟩ <;>
    simp +decide [saveAuthoritySignature, saveMeshHandle, saveKeyPair, setItem,
      PRIVATE_KEY, PUBLIC_KEY, MESH_HANDLE, AUTHORITY_SIGNATURE]

/-- The concrete secure store used by witnesses. -/
def sampleStore : Store := fun k =>
  if k = PRIVATE_KEY then some "aa"
  else if k = PUBLIC_KEY then some "bb"
  else if k = MESH_HANDLE then some "alice"
  else if k = AUTHORITY_SIGNATURE then some "sig"
  else none

/-- Concrete instantiation of claim C5: a populated store round-trips through
the backup code into an empty store. -/
theorem c5_witness :
    loadKeyPair sampleStore = some ⟨"aa", "bb"⟩ ∧
    loadMeshHandle sampleStore = some "alice" ∧
    loadAuthoritySignature sampleStore = some "sig" ∧
    ∃ code, generateBackupCode sampleStore "2024-01-01T00:00:00.000Z" = .ok code ∧
      (restoreFromBackup code (fun _ => none)).2 = .ok () ∧
      (restoreFromBackup code (fun _ => none)).1 PRIVATE_KEY = some "aa" ∧
      (restoreFromBackup code (fun _ => none)).1 PUBLIC_KEY = some "bb" ∧
      (restoreFromBackup code (fun _ => none)).1 MESH_HANDLE = some "alice" ∧
      (restoreFromBackup code (fun _ => none)).1 AUTHORITY_SIGNATURE = some "sig" :=
  ⟨rfl, rfl, rfl,
    c5_backup_roundtrip sampleStore (fun _ => none) ⟨"aa", "bb"⟩ "alice" "sig"
      "2024-01-01T00:00:00.000Z" rfl rfl (by decide) rfl (by decide)⟩

/-- Claim C6: for every backup code whose decoded JSON carries a version field
different from the number 1, restore fails with the unsupported-version error
and the store is unchanged; and for every decoded version-1 bundle in which one
of the four credential fields is missing, restore fails with the
malformed-backup error ("Invalid backup format") and the store is unchanged. -/
theorem c6_version_and_missing_fields (code : String) (store : Store) (backup : Json)
    (hdec : decodeBackupJson code = some backup) :
    (∀ v, jsonGet backup "version" = some v → v ≠ .num 1 →
      restoreFromBackup code store
        = (store, .error "Failed to restore backup: Unsupported backup version")) ∧
    ((jsonGet backup "version" = some (.num 1) →
      (jsonGet backup "handle" = none ∨ jsonGet backup "privateKey" = none ∨
        jsonGet backup "publicKey" = none ∨ jsonGet backup "signature" = none) →
      restoreFromBackup code store
        = (store, .error "Failed to restore backup: Invalid backup format"))) := by
  constructor
  · intro v hv hne
    unfold restoreFromBackup
    rw [hdec]
    dsimp only
    rw [hv]
    cases v with
    | num n =>
      dsimp only
      rw [if_pos (fun hc => hne (by rw [hc]))]
    | null => rfl
    | bool b => rfl
    | str s => rfl
    | obj fields => rfl
  · intro hv hmiss
    unfold restoreFromBackup
    rw [hdec]
    dsimp only
    rw [hv]
    dsimp only
    rw [if_neg (by simp)]
    rcases hmiss with hm | hm | hm | hm <;> rw [if_pos (by simp [hm, jsonFalsy])]

/-- Concrete instantiation of claim C6: a backup code encoding the JSON object
with version 2 is rejected with the unsupported-version error. -/
theorem c6_witness :
    decodeBackupJson (base64Encode "\x7b\"version\":2\x7d")
      = some (.obj [("version", .num 2)]) ∧
    restoreFromBackup (base64Encode "\x7b\"version\":2\x7d") ((fun _ => none) : Store)
      = (((fun _ => none) : Store),
        .error "Failed to restore backup: Unsupported backup version") :=
  ⟨rfl,
    (c6_version_and_missing_fields (base64Encode "\x7b\"version\":2\x7d")
        (fun _ => none) (.obj [("version", .num 2)]) rfl).1
      (.num 2) rfl (fun hc => absurd (Json.num.inj hc) (by decide))⟩

/-- Claim C10: a version-1 bundle in which any of the four credential fields is
present but equal to the empty string fails the truthiness check: restore
rejects it with the malformed-backup error ("Invalid backup format") and
persists nothing. -/
theorem c10_empty_string_credential (code : String) (store : Store) (backup : Json)
    (hdec : decodeBackupJson code = some backup)
    (hver : jsonGet backup "version" = some (.num 1))
    (hempty : jsonGet backup "handle" = some (.str "") ∨
      jsonGet backup "privateKey" = some (.str "") ∨
      jsonGet backup "publicKey" = some (.str "") ∨
      jsonGet backup "signature" = some (.str "")) :
    restoreFromBackup code store
      = (store, .error "Failed to restore backup: Invalid backup format") := by
  unfold restoreFromBackup
  rw [hdec]
  dsimp only
  rw [hver]
  dsimp only
  rw [if_neg (by simp)]
  rcases hempty with hm | hm | hm | hm <;> rw [if_pos (by simp [hm, jsonFalsy])]

/-- Concrete instantiation of claim C10: a version-1 bundle whose handle is the
empty string is rejected as malformed. -/
theorem c10_witness :
    decodeBackupJson (base64Encode
        "\x7b\"version\":1,\"handle\":\"\",\"privateKey\":\"aa\",\"publicKey\":\"bb\",\"signature\":\"cc\"\x7d")
      = some (.obj [("version", .num 1), ("handle", .str ""), ("privateKey", .str "aa"),
        ("publicKey", .str "bb"), ("signature", .str "cc")]) ∧
    restoreFromBackup (base64Encode
        "\x7b\"version\":1,\"handle\":\"\",\"privateKey\":\"aa\",\"publicKey\":\"bb\",\"signature\":\"cc\"\x7d")
        ((fun _ => none) : Store)
      = (((fun _ => none) : Store), .error "Failed to restore backup: Invalid backup format") :=
  ⟨rfl,
    c10_empty_string_credential _ (fun _ => none)
      (.obj [("version", .num 1), ("handle", .str ""), ("privateKey", .str "aa"),
        ("publicKey", .str "bb"), ("signature", .str "cc")]) rfl rfl (Or.inl rfl)⟩

/-! ### Attestation verifier (src/lib/crypto.ts) -/

/-- The fixed authority public key PEM from src/lib/crypto.ts. -/
def AUTHORITY_PUBLIC_KEY_PEM : String :=
  "-----BEGIN PUBLIC KEY-----\nMCowBQYDK2VwAyEAAqj8xwn6RCmZuOLPtRwaVSTzJ71SS1aEf2XCi4IEnDA=\n-----END PUBLIC KEY-----"

/-- Two hex characters of a byte (`toString(16).padStart(2, '0')`). -/
def byteToHexChars (b : Nat) : List Char := [hexDigitChar (b / 16 % 16), hexDigitChar (b % 16)]

/-- `bytesToHex` from src/lib/crypto.ts. -/
def bytesToHex (l : List Nat) : String := String.mk (l.flatMap byteToHexChars)

/-- `parseInt(two-char-slice, 16)` coerced through a `Uint8Array` slot: an
invalid first digit gives `NaN` (stored as 0), an invalid second digit leaves
the one-digit prefix value. -/
def jsHexByte (c0 c1 : Char) : Nat :=
  match hexVal c0 with
  | none => 0
  | some v0 =>
    match hexVal c1 with
    | none => v0
    | some v1 => v0 * 16 + v1

/-- `hexToBytes` from src/lib/crypto.ts (an odd trailing digit is dropped, as
the out-of-range typed-array write is). -/
def hexToBytesCore : List Char → List Nat
  | c0 :: c1 :: rest => jsHexByte c0 c1 :: hexToBytesCore rest
  | _ => []

/-- Reassemble bytes from 6-bit values (lenient base64, final leftovers
discarded as Node's `Buffer.from(_, 'base64')` does). -/
def b64Assemble : List Nat → List Nat
  | v0 :: v1 :: v2 :: v3 :: rest =>
    (v0 * 4 + v1 / 16) :: (v1 % 16 * 16 + v2 / 4) :: (v2 % 4 * 64 + v3) :: b64Assemble rest
  | [v0, v1] => [v0 * 4 + v1 / 16]
  | [v0, v1, v2] => [v0 * 4 + v1 / 16, v1 % 16 * 16 + v2 / 4]
  | _ => []

/-- Model of Node's lenient `Buffer.from(s, 'base64')`: non-alphabet
characters are ignored. -/
def bufferFromBase64 (s : String) : List Nat :=
  b64Assemble ((s.data.filter (fun c => (b64Val c).isSome)).map (fun c => (b64Val c).getD 0))

/-- Remove the first occurrence of a pattern from a character list
(JS `String.prototype.replace` with a plain-string pattern). -/
def removeFirst (pat : List Char) : List Char → List Char
  | [] => []
  | c :: rest =>
    if startsAux (c :: rest) pat then (c :: rest).drop pat.length
    else c :: removeFirst pat rest

/-- The PEM body: header and footer removed, whitespace stripped
(the two `replace` calls and the `\s` regex replace in `verifyAttestation`). -/
def pemBody : List Char :=
  (removeFirst ("-----END PUBLIC KEY-----".data)
    (removeFirst ("-----BEGIN PUBLIC KEY-----".data) AUTHORITY_PUBLIC_KEY_PEM.data)).filter
      (fun c => !c.isWhitespace)

/-- The fallible body of `verifyAttestation` (everything inside the `try`),
parameterised by the behaviour of the external `ed25519.verify` primitive,
which may either return a boolean or throw (`Except.error`). -/
def verifyAttestationBody
    (verify : List Nat → List Nat → List Nat → Except String Bool)
    (address publicKeyHex signatureBase64 : String) : Except String Bool :=
  let message := buildAttestationMessage address publicKeyHex
  let messageBytes := utf8Encode message.data
  let signatureBytes := hexToBytesCore (bytesToHex (bufferFromBase64 signatureBase64)).data
  let derBytes := hexToBytesCore (bytesToHex (bufferFromBase64 (String.mk pemBody))).data
  let authorityPublicKeyBytes := derBytes.drop (derBytes.length - 32)
  verify signatureBytes messageBytes authorityPublicKeyBytes

/-- `verifyAttestation` from src/lib/crypto.ts: the catch block collapses every
thrown error to `false`. -/
def verifyAttestation (verify : List Nat → List Nat → List Nat → Except String Bool)
    (address publicKeyHex signatureBase64 : String) : Bool :=
  match verifyAttestationBody verify address publicKeyHex signatureBase64 with
  | .ok b => b
  | .error _ => false

/-- Claim C7: for every input triple (however malformed) and every behaviour of
the external ed25519 primitive, `verifyAttestation` returns a boolean and never
propagates an exception: a thrown error (parse failure inside the primitive)
collapses to `false`, and a returned verdict is passed through, so a signature
mismatch (`ok false`) also yields `false`. -/
theorem c7_verify_never_throws
    (verify : List Nat → List Nat → List Nat → Except String Bool)
    (address publicKeyHex signatureBase64 : String) :
    (verifyAttestation verify address publicKeyHex signatureBase64 = true ∨
      verifyAttestation verify address publicKeyHex signatureBase64 = false) ∧
    (∀ e, verifyAttestationBody verify address publicKeyHex signatureBase64 = .error e →
      verifyAttestation verify address publicKeyHex signatureBase64 = false) ∧
    (∀ b, verifyAttestationBody verify address publicKeyHex signatureBase64 = .ok b →
      verifyAttestation verify address publicKeyHex signatureBase64 = b) := by
  refine ⟨?_, ?_, ?_⟩
  · cases hb : verifyAttestation verify address publicKeyHex signatureBase64
    · exact Or.inr rfl
    · exact Or.inl rfl
  · intro e he
    unfold verifyAttestation
    rw [he]
  · intro b hb
    unfold verifyAttestation
    rw [hb]

/-- Concrete instantiation of claim C7: a throwing ed25519 primitive is
collapsed to the boolean `false`. -/
theorem c7_witness :
    verifyAttestationBody (fun _ _ _ => .error "bad point encoding") "alice" "zz" "!!!"
      = .error "bad point encoding" ∧
    verifyAttestation (fun _ _ _ => .error "bad point encoding") "alice" "zz" "!!!" = false :=
  ⟨rfl, (c7_verify_never_throws (fun _ _ _ => .error "bad point encoding")
    "alice" "zz" "!!!").2.1 "bad point encoding" rfl⟩

end MeshMail
